import Mathlib

/-!
Verification development for the MCP HTTP server exposing Google Sheets and
Drive tools (src/index.js).

JavaScript strings are modelled as Lean `String`s (processed through their
`List Char` of code points; the characters the program distinguishes are all
in the Basic Multilingual Plane, where JS UTF-16 code units and code points
agree).  JavaScript `Error(msg)` values are modelled as the thrown message
string, so fallible functions return `Except String α`.  The external Google
service is modelled by explicit inputs: the fetched sheet-metadata list for
`spreadsheets.get`, and an abstract handler-execution function for the
dispatch endpoint.
-/

deriving instance DecidableEq for Except

/-- Characters matched by the regex class `[A-Z]` (code points 65–90). -/
def isUpperLetter (c : Char) : Bool := 65 ≤ c.toNat && c.toNat ≤ 90

/-- Characters matched by the regex class `\d` (code points 48–57). -/
def isDigitCh (c : Char) : Bool := 48 ≤ c.toNat && c.toNat ≤ 57

/-- JavaScript line terminators, the characters NOT matched by `.`
(without the `s` flag): LF, CR, U+2028, U+2029. -/
def isJsLineTerm (c : Char) : Bool :=
  c.toNat = 10 || c.toNat = 13 || c.toNat = 0x2028 || c.toNat = 0x2029

/-- Characters matched by the regex `.` (any char except a line terminator). -/
def isJsDotChar (c : Char) : Bool := !isJsLineTerm c

/-- Characters matched by the regex class `\s` in JavaScript. -/
def isJsWhitespace (c : Char) : Bool :=
  (9 ≤ c.toNat && c.toNat ≤ 13) || c.toNat = 32 || c.toNat = 0xa0 ||
  c.toNat = 0x1680 || (0x2000 ≤ c.toNat && c.toNat ≤ 0x200a) ||
  c.toNat = 0x2028 || c.toNat = 0x2029 || c.toNat = 0x202f ||
  c.toNat = 0x205f || c.toNat = 0x3000 || c.toNat = 0xfeff

/-- ASCII lower-casing of a single character; this is how the `i` flag
canonicalises characters against the ASCII letters of the pattern `Bearer`
(in non-unicode mode a non-ASCII character never canonicalises to ASCII). -/
def asciiLower (c : Char) : Char :=
  if 65 ≤ c.toNat && c.toNat ≤ 90 then Char.ofNat (c.toNat + 32) else c

/-- The `properties` record `(sheetId, title)` of one sheet in the metadata
returned by `spreadsheets.get({fields: 'sheets(properties(sheetId,title))'})`. -/
structure SheetProps where
  sheetId : Int
  title : String
deriving Repr, DecidableEq

/-- The structured grid range produced by `parseA1ToGridRange`, field for
field the object literal returned at src/index.js:74. -/
structure GridRange where
  sheetId : Int
  startRowIndex : Int
  endRowIndex : Int
  startColumnIndex : Int
  endColumnIndex : Int
deriving Repr, DecidableEq

/-- Message of the error thrown at src/index.js:19. -/
def errMissingAuth : String := "Missing Authorization header"

/-- Message of the error thrown at src/index.js:21. -/
def errMalformedAuth : String := "Invalid Authorization header format"

/-- Message of the error thrown at src/index.js:59. -/
def errRangeNoSheet : String := "range must include sheet name, e.g., \"Sheet1!A1:B2\""

/-- Message of the error thrown at src/index.js:67. -/
def errRangeBadSpan : String := "range must be like A1:B2"

/-- Backtracking step of `/^Bearer\s+(.+)$/`: `rest` is the input after the
six pattern letters, and the quantifier `\s+` is tried on `j` characters,
from the longest whitespace run downwards; the captured group `(.+)` is the
remainder, which must be non-empty and free of line terminators. -/
def bearerBacktrack (rest : List Char) : Nat → Option (List Char)
  | 0 => none
  | j + 1 =>
    let tok := rest.drop (j + 1)
    if !tok.isEmpty && tok.all isJsDotChar then some tok
    else bearerBacktrack rest j

/-- Match of `header.match(/^Bearer\s+(.+)$/i)` (src/index.js:20), returning
the captured token characters when the header matches. -/
def bearerMatch (header : String) : Option (List Char) :=
  let cs := header.data
  if (cs.take 6).map asciiLower = "bearer".data then
    let rest := cs.drop 6
    bearerBacktrack rest ((rest.takeWhile isJsWhitespace).length)
  else none

/-- `getBearerToken` (src/index.js:17–23).  The authorization header is
`none` when the request carries no such header; note that an empty header
value is falsy in JavaScript, so it takes the same branch as an absent one. -/
def getBearerToken (authHeader : Option String) : Except String String :=
  match authHeader with
  | none => Except.error errMissingAuth
  | some h =>
    if h.data = [] then Except.error errMissingAuth
    else
      match bearerMatch h with
      | none => Except.error errMalformedAuth
      | some tok => Except.ok (String.mk tok)

/-- The predicate of the `.find` callback at src/index.js:39–41: the entry
has a `properties` object whose `title` strictly equals the target. -/
def sheetEntryMatches (s : Option SheetProps) (name : String) : Bool :=
  match s with
  | some p => p.title == name
  | none => false

/-- `getSheetIdByName` (src/index.js:34–44).  `sheetsMeta` is the fetched
`sheets` list, each element being a sheet's `properties` field (`none` when
that field is absent); the JS `meta.data.sheets || []` default corresponds
to passing `[]`. -/
def getSheetIdByName (sheetsMeta : List (Option SheetProps)) (sheetName : String) :
    Except String Int :=
  match sheetsMeta.find? (fun s => sheetEntryMatches s sheetName) with
  | some (some p) => Except.ok p.sheetId
  | _ => Except.error ("Sheet not found: " ++ sheetName)

/-- `columnLettersToIndex` (src/index.js:46–53): fold `index = index * 26 +
(charCode - 64)` over the letters, then subtract 1. -/
def columnLettersToIndex (letters : String) : Int :=
  letters.data.foldl (fun index c => index * 26 + ((c.toNat : Int) - 64)) 0 - 1

/-- Accumulator of `String.prototype.split('!')`: cut the character list at
every `'!'`, keeping empty segments, like the JS method with no limit. -/
def splitBangAux : List Char → List Char → List (List Char)
  | [], acc => [acc.reverse]
  | c :: cs, acc =>
    if c = '!' then acc.reverse :: splitBangAux cs []
    else splitBangAux cs (c :: acc)

/-- `a1Range.split('!')` (src/index.js:57). -/
def splitBang (cs : List Char) : List (List Char) := splitBangAux cs []

/-- Whether `/^'(.+)'$/` matches: at least one character between two single
quotes, none of them a line terminator (`.` without the `s` flag). -/
def stripApplies (cs : List Char) : Bool :=
  match cs with
  | c :: rest =>
    match rest.getLast? with
    | some lastc =>
      c = '\'' && lastc = '\'' && !rest.dropLast.isEmpty && rest.dropLast.all isJsDotChar
    | none => false
  | [] => false

/-- `sheetPart.replace(/^'(.+)'$/, '$1')` (src/index.js:61): strip one pair
of wrapping single quotes when the whole string has that shape. -/
def stripSheetQuotes (s : String) : String :=
  if stripApplies s.data then String.mk ((s.data.drop 1).dropLast) else s

/-- `parseInt(digits, 10)` on a non-empty all-digit string. -/
def digitsToNat (ds : List Char) : Nat :=
  ds.foldl (fun n c => n * 10 + (c.toNat - 48)) 0

/-- Attempt of `/([A-Z]+)(\d+):([A-Z]+)(\d+)/` at one start position: the
character classes are pairwise disjoint, so each greedy quantifier takes its
maximal run and no backtracking can succeed where this fails. -/
def matchA1At (cs : List Char) : Option (List Char × List Char × List Char × List Char) :=
  let c1 := cs.takeWhile isUpperLetter
  let rest1 := cs.dropWhile isUpperLetter
  if c1.isEmpty then none
  else
    let r1 := rest1.takeWhile isDigitCh
    let rest2 := rest1.dropWhile isDigitCh
    if r1.isEmpty then none
    else
      match rest2 with
      | ':' :: rest3 =>
        let c2 := rest3.takeWhile isUpperLetter
        let rest4 := rest3.dropWhile isUpperLetter
        if c2.isEmpty then none
        else
          let r2 := rest4.takeWhile isDigitCh
          if r2.isEmpty then none else some (c1, r1, c2, r2)
      | _ => none

/-- Unanchored leftmost match of `rangePart.match(/([A-Z]+)(\d+):([A-Z]+)(\d+)/)`
(src/index.js:66): try each start position left to right. -/
def findA1Match : List Char → Option (List Char × List Char × List Char × List Char)
  | [] => none
  | c :: cs =>
    match matchA1At (c :: cs) with
    | some m => some m
    | none => findA1Match cs

/-- `parseA1ToGridRange` (src/index.js:55–75).  The `await` of the metadata
fetch is modelled by taking the fetched sheet list as an argument. -/
def parseA1ToGridRange (sheetsMeta : List (Option SheetProps)) (a1Range : String) :
    Except String GridRange :=
  let parts := splitBang a1Range.data
  let sheetPart := parts.headD []
  let rangePartRaw := parts.getD 1 []
  if rangePartRaw = [] then Except.error errRangeNoSheet
  else
    let sheetName := stripSheetQuotes (String.mk sheetPart)
    match getSheetIdByName sheetsMeta sheetName with
    | Except.error e => Except.error e
    | Except.ok sheetId =>
      let rangePart := rangePartRaw.map Char.toUpper
      match findA1Match rangePart with
      | none => Except.error errRangeBadSpan
      | some (c1, r1, c2, r2) =>
        Except.ok
          { sheetId := sheetId
            startRowIndex := (digitsToNat r1 : Int) - 1
            endRowIndex := (digitsToNat r2 : Int)
            startColumnIndex := columnLettersToIndex (String.mk c1)
            endColumnIndex := columnLettersToIndex (String.mk c2) + 1 }

/-- Outcome of the `drive_upload_file` handler (src/index.js:203–222): either
the size-guard error, or the `drive.files.create` media upload it would
perform, recorded with the request it sends. -/
inductive DriveUploadOutcome where
  | error (msg : String)
  | createCall (name : String) (mimeType : String) (bodyLen : Nat) (parentId : Option String)
deriving Repr, DecidableEq

/-- Message of the error thrown at src/index.js:206. -/
def errFileTooLarge : String := "File too large: max 10MB base64 payload supported"

/-- The `drive_upload_file` handler (src/index.js:203–222).  The platform
primitive `Buffer.from(data, 'base64')` is abstracted: `buffer` is the
decoded byte sequence of the base64 payload. -/
def driveUploadFile (name mimeType : String) (buffer : List Nat) (parentId : Option String) :
    DriveUploadOutcome :=
  if buffer.length > 10 * 1024 * 1024 then DriveUploadOutcome.error errFileTooLarge
  else DriveUploadOutcome.createCall name mimeType buffer.length parentId

/-- The 19 own keys of the `toolHandlers` object literal (src/index.js:78–284),
the static tool registry. -/
def toolNames : List String :=
  ["sheets.create_spreadsheet", "sheets.get_values", "sheets.update_values",
   "sheets.append_values", "sheets.clear_values", "sheets.create_sheet",
   "sheets.delete_sheet", "sheets.get_info", "sheets.format_cells",
   "sheets.batch_update", "drive_list_files", "drive_create_folder",
   "drive_upload_file", "drive_delete_file", "drive_get_file_info",
   "drive_download_file", "drive_share_file", "drive_move_file",
   "drive_rename_file"]

/-- Property names that `toolHandlers[name]` resolves to a truthy value even
though they are not own keys of the object literal: the function-valued (or,
for `__proto__`, object-valued) properties inherited from
`Object.prototype` by every plain object. -/
def objectProtoProps : List String :=
  ["constructor", "hasOwnProperty", "isPrototypeOf", "propertyIsEnumerable",
   "toLocaleString", "toString", "valueOf", "__defineGetter__",
   "__defineSetter__", "__lookupGetter__", "__lookupSetter__", "__proto__"]

/-- Truthiness of the JavaScript property lookup `toolHandlers[name]`
(src/index.js:637): own keys of the literal, plus the inherited
`Object.prototype` properties. -/
def toolLookupTruthy (name : String) : Bool :=
  toolNames.contains name || objectProtoProps.contains name

/-- Response sent by the `/mcp/tool` endpoint: a JSON result, or a status
code with an error message. -/
inductive ToolResponse (R : Type) where
  | ok (result : R)
  | err (status : Nat) (message : String)
deriving Repr, DecidableEq

/-- The `POST /mcp/tool` endpoint (src/index.js:633–646).  `run` abstracts
handler execution against the external service: it receives the looked-up
tool's name, the request's `args` (`emptyArgs` models the `args || {}`
default), and the extracted bearer token that `getGoogleClients` installs in
the clients handed to the handler; it returns the handler's result or the
message of the error it throws.  `name?` is `none` when the body carries no
`name` field. -/
def dispatchTool {A R : Type} (run : String → A → String → Except String R)
    (emptyArgs : A) (name? : Option String) (args? : Option A)
    (authHeader : Option String) : ToolResponse R :=
  match name? with
  | none => ToolResponse.err 400 "Missing tool name"
  | some name =>
    if name = "" then ToolResponse.err 400 "Missing tool name"
    else if toolLookupTruthy name = false then
      ToolResponse.err 404 ("Unknown tool: " ++ name)
    else
      match getBearerToken authHeader with
      | Except.error e => ToolResponse.err 400 e
      | Except.ok token =>
        match run name (args?.getD emptyArgs) token with
        | Except.error e => ToolResponse.err 400 e
        | Except.ok r => ToolResponse.ok r

/-- Spec-side value of a column-letter sequence read as a bijective base-26
numeral: each letter contributes its 1-based alphabet position times a power
of 26 by place value.  Written positionally, independently of the source's
accumulator loop. -/
def bijBase26 : List Char → Nat
  | [] => 0
  | c :: cs => (c.toNat - 64) * 26 ^ cs.length + bijBase26 cs

/-- Sum of the powers `26^0 + ... + 26^(n-1)`, the value of the all-`A`
column name of length `n`. -/
def geo : Nat → Nat
  | 0 => 0
  | n + 1 => 26 * geo n + 1

/-- Strict lexicographic order on character lists, by code point. -/
def lexLtB : List Char → List Char → Bool
  | [], [] => false
  | [], _ :: _ => true
  | _ :: _, [] => false
  | a :: as, b :: bs =>
    if a.toNat < b.toNat then true
    else if a.toNat = b.toNat then lexLtB as bs
    else false

/-- Spreadsheet column-name order (the order A, B, ..., Z, AA, AB, ...):
shorter names first, names of equal length lexicographically. -/
def colNameOrder (s1 s2 : List Char) : Bool :=
  Nat.blt s1.length s2.length || (s1.length == s2.length && lexLtB s1 s2)

lemma upper_range (c : Char) (h : isUpperLetter c = true) : 65 ≤ c.toNat ∧ c.toNat ≤ 90 := by
  simpa [isUpperLetter, Bool.and_eq_true, decide_eq_true_eq] using h

lemma digit_range (c : Char) (h : isDigitCh c = true) : 48 ≤ c.toNat ∧ c.toNat ≤ 57 := by
  simpa [isDigitCh, Bool.and_eq_true, decide_eq_true_eq] using h

lemma digit_not_upper (c : Char) (h : isDigitCh c = true) : isUpperLetter c = false := by
  have := digit_range c h
  simp [isUpperLetter]
  omega

lemma upper_not_digit (c : Char) (h : isUpperLetter c = true) : isDigitCh c = false := by
  have := upper_range c h
  simp [isDigitCh]
  omega

lemma upper_ne_bang (c : Char) (h : isUpperLetter c = true) : c ≠ '!' := by
  intro he
  subst he
  exact absurd h (by decide)

lemma digit_ne_bang (c : Char) (h : isDigitCh c = true) : c ≠ '!' := by
  intro he
  subst he
  exact absurd h (by decide)

lemma toUpper_eq_self (c : Char) (h : c.toNat < 97 ∨ 122 < c.toNat) : Char.toUpper c = c := by
  simp only [Char.toUpper]
  rw [if_neg (by omega)]

lemma toUpper_upper (c : Char) (h : isUpperLetter c = true) : Char.toUpper c = c :=
  toUpper_eq_self c (Or.inl (by have := upper_range c h; omega))

lemma toUpper_digit (c : Char) (h : isDigitCh c = true) : Char.toUpper c = c :=
  toUpper_eq_self c (Or.inl (by have := digit_range c h; omega))

lemma takeWhile_run (p : Char → Bool) (xs ys : List Char)
    (hxs : ∀ x ∈ xs, p x = true) (hys : ∀ y ∈ ys.take 1, p y = false) :
    (xs ++ ys).takeWhile p = xs ∧ (xs ++ ys).dropWhile p = ys := by
  constructor
  · rw [List.takeWhile_append_of_pos hxs]
    cases ys with
    | nil => simp
    | cons y ys' =>
      have hy : p y = false := hys y (by simp)
      simp [hy]
  · rw [List.dropWhile_append_of_pos hxs]
    cases ys with
    | nil => simp
    | cons y ys' =>
      have hy : p y = false := hys y (by simp)
      simp [hy]

lemma head_fail_of_run {p : Char → Bool} (ds zs : List Char) (hne : ds ≠ [])
    (hall : ∀ d ∈ ds, p d = false) : ∀ y ∈ (ds ++ zs).take 1, p y = false := by
  cases ds with
  | nil => exact absurd rfl hne
  | cons d ds' =>
    intro y hy
    have hyd : y = d := by simpa using hy
    rw [hyd]
    exact hall d (by simp)

lemma splitBangAux_no_bang : ∀ (cs acc : List Char), (∀ c ∈ cs, c ≠ '!') →
    splitBangAux cs acc = [acc.reverse ++ cs] := by
  intro cs
  induction cs with
  | nil => intro acc _; simp [splitBangAux]
  | cons c cs ih =>
    intro acc h
    have hc : c ≠ '!' := h c (List.mem_cons_self ..)
    simp only [splitBangAux, if_neg hc]
    rw [ih (c :: acc) (fun x hx => h x (List.mem_cons_of_mem _ hx))]
    simp

lemma splitBangAux_bang : ∀ (xs : List Char), (∀ c ∈ xs, c ≠ '!') → ∀ (ys acc : List Char),
    splitBangAux (xs ++ '!' :: ys) acc = (acc.reverse ++ xs) :: splitBangAux ys [] := by
  intro xs
  induction xs with
  | nil => intro _ ys acc; simp [splitBangAux]
  | cons x xs ih =>
    intro h ys acc
    have hx : x ≠ '!' := h x (List.mem_cons_self ..)
    simp only [List.cons_append, splitBangAux, if_neg hx, List.append_eq]
    rw [ih (fun c hc => h c (List.mem_cons_of_mem _ hc)) ys (x :: acc)]
    simp

lemma splitBang_no_bang (cs : List Char) (h : ∀ c ∈ cs, c ≠ '!') :
    splitBang cs = [cs] := by
  rw [splitBang, splitBangAux_no_bang cs [] h]
  simp

lemma splitBang_bang (xs ys : List Char) (h : ∀ c ∈ xs, c ≠ '!') :
    splitBang (xs ++ '!' :: ys) = xs :: splitBang ys := by
  rw [splitBang, splitBangAux_bang xs h ys []]
  simp [splitBang]

lemma isEmpty_false_of_ne {α : Type} (l : List α) (h : l ≠ []) : l.isEmpty = false := by
  cases l with
  | nil => exact absurd rfl h
  | cons a as => rfl

lemma matchA1At_exact (c1 r1 c2 r2 : List Char)
    (hc1 : c1 ≠ []) (hc1u : ∀ c ∈ c1, isUpperLetter c = true)
    (hr1 : r1 ≠ []) (hr1d : ∀ c ∈ r1, isDigitCh c = true)
    (hc2 : c2 ≠ []) (hc2u : ∀ c ∈ c2, isUpperLetter c = true)
    (hr2 : r2 ≠ []) (hr2d : ∀ c ∈ r2, isDigitCh c = true) :
    matchA1At (c1 ++ (r1 ++ ':' :: (c2 ++ r2))) = some (c1, r1, c2, r2) := by
  have h1 := takeWhile_run isUpperLetter c1 (r1 ++ ':' :: (c2 ++ r2)) hc1u
    (head_fail_of_run r1 (':' :: (c2 ++ r2)) hr1
      (fun d hd => digit_not_upper d (hr1d d hd)))
  have h2 := takeWhile_run isDigitCh r1 (':' :: (c2 ++ r2)) hr1d
    (by
      intro y hy
      have hyd : y = ':' := by simpa using hy
      rw [hyd]
      decide)
  have h3 := takeWhile_run isUpperLetter c2 r2 hc2u
    (by
      intro y hy
      rcases List.mem_take_iff_getElem.mp hy with ⟨i, hi, rfl⟩
      exact digit_not_upper _ (hr2d _ (List.getElem_mem _)))
  have h4 : r2.takeWhile isDigitCh = r2 := by
    have := takeWhile_run isDigitCh r2 [] hr2d (by intro y hy; simp at hy)
    simpa using this.1
  simp only [matchA1At]
  rw [h1.1, h1.2, isEmpty_false_of_ne c1 hc1]
  simp only [Bool.false_eq_true, if_false]
  rw [h2.1, h2.2, isEmpty_false_of_ne r1 hr1]
  simp only [Bool.false_eq_true, if_false]
  rw [h3.1, h3.2, isEmpty_false_of_ne c2 hc2]
  simp only [Bool.false_eq_true, if_false]
  rw [h4, isEmpty_false_of_ne r2 hr2]
  simp

lemma findA1Match_of_head (cs : List Char)
    (m : List Char × List Char × List Char × List Char)
    (hne : cs ≠ []) (h : matchA1At cs = some m) : findA1Match cs = some m := by
  cases cs with
  | nil => exact absurd rfl hne
  | cons c cs' => simp [findA1Match, h]

lemma stripApplies_quoted (nameL : List Char) (hne : nameL ≠ [])
    (hdot : ∀ c ∈ nameL, isJsDotChar c = true) :
    stripApplies ('\'' :: (nameL ++ ['\''])) = true := by
  simp only [stripApplies]
  rw [List.getLast?_concat, List.dropLast_concat]
  simp [isEmpty_false_of_ne nameL hne, List.all_eq_true]
  exact hdot

lemma stripSheetQuotes_quoted (nameL : List Char) (hne : nameL ≠ [])
    (hdot : ∀ c ∈ nameL, isJsDotChar c = true) :
    stripSheetQuotes (String.mk ('\'' :: (nameL ++ ['\'']))) = String.mk nameL := by
  simp only [stripSheetQuotes]
  rw [stripApplies_quoted nameL hne hdot]
  simp [List.dropLast_concat]

lemma stripSheetQuotes_id (s : String) (h : stripApplies s.data = false) :
    stripSheetQuotes s = s := by
  simp [stripSheetQuotes, h]

lemma parseA1_built (sheetsMeta : List (Option SheetProps)) (namePartL : List Char)
    (hb : ∀ c ∈ namePartL, c ≠ '!')
    (c1 r1 c2 r2 : List Char)
    (hc1 : c1 ≠ []) (hc1u : ∀ c ∈ c1, isUpperLetter c = true)
    (hr1 : r1 ≠ []) (hr1d : ∀ c ∈ r1, isDigitCh c = true)
    (hc2 : c2 ≠ []) (hc2u : ∀ c ∈ c2, isUpperLetter c = true)
    (hr2 : r2 ≠ []) (hr2d : ∀ c ∈ r2, isDigitCh c = true)
    (sid : Int)
    (hsid : getSheetIdByName sheetsMeta (stripSheetQuotes (String.mk namePartL)) = Except.ok sid) :
    parseA1ToGridRange sheetsMeta
        (String.mk (namePartL ++ '!' :: (c1 ++ (r1 ++ ':' :: (c2 ++ r2))))) =
      Except.ok ⟨sid, (digitsToNat r1 : Int) - 1, (digitsToNat r2 : Int),
        columnLettersToIndex (String.mk c1), columnLettersToIndex (String.mk c2) + 1⟩ := by
  have hspanb : ∀ c ∈ c1 ++ (r1 ++ ':' :: (c2 ++ r2)), c ≠ '!' := by
    intro c hc
    simp only [List.mem_append, List.mem_cons] at hc
    rcases hc with h | h | h | h | h
    · exact upper_ne_bang c (hc1u c h)
    · exact digit_ne_bang c (hr1d c h)
    · rw [h]; decide
    · exact upper_ne_bang c (hc2u c h)
    · exact digit_ne_bang c (hr2d c h)
  have hspan_ne : c1 ++ (r1 ++ ':' :: (c2 ++ r2)) ≠ [] := by
    cases c1 with
    | nil => exact absurd rfl hc1
    | cons a as => simp
  have hsplit : splitBang (namePartL ++ '!' :: (c1 ++ (r1 ++ ':' :: (c2 ++ r2)))) =
      namePartL :: [c1 ++ (r1 ++ ':' :: (c2 ++ r2))] := by
    rw [splitBang_bang namePartL _ hb, splitBang_no_bang _ hspanb]
  have hupper : (c1 ++ (r1 ++ ':' :: (c2 ++ r2))).map Char.toUpper =
      c1 ++ (r1 ++ ':' :: (c2 ++ r2)) := by
    have hall : ∀ c ∈ c1 ++ (r1 ++ ':' :: (c2 ++ r2)), Char.toUpper c = c := by
      intro c hc
      simp only [List.mem_append, List.mem_cons] at hc
      rcases hc with h | h | h | h | h
      · exact toUpper_upper c (hc1u c h)
      · exact toUpper_digit c (hr1d c h)
      · rw [h]; decide
      · exact toUpper_upper c (hc2u c h)
      · exact toUpper_digit c (hr2d c h)
    calc (c1 ++ (r1 ++ ':' :: (c2 ++ r2))).map Char.toUpper
        = (c1 ++ (r1 ++ ':' :: (c2 ++ r2))).map id :=
          List.map_congr_left (fun c hc => (hall c hc).trans rfl)
      _ = c1 ++ (r1 ++ ':' :: (c2 ++ r2)) := List.map_id _
  have hfind : findA1Match (c1 ++ (r1 ++ ':' :: (c2 ++ r2))) = some (c1, r1, c2, r2) :=
    findA1Match_of_head _ _ hspan_ne
      (matchA1At_exact c1 r1 c2 r2 hc1 hc1u hr1 hr1d hc2 hc2u hr2 hr2d)
  simp only [parseA1ToGridRange]
  rw [hsplit]
  simp only [List.headD_cons, List.getD_cons_succ, List.getD_cons_zero]
  rw [if_neg hspan_ne, hsid, hupper, hfind]

lemma colFoldl_eq : ∀ (cs : List Char), (∀ c ∈ cs, isUpperLetter c = true) → ∀ (a : Int),
    cs.foldl (fun index c => index * 26 + ((c.toNat : Int) - 64)) a =
      a * 26 ^ cs.length + (bijBase26 cs : Int) := by
  intro cs
  induction cs with
  | nil => intro _ a; simp [bijBase26]
  | cons c cs ih =>
    intro hu a
    have hc := upper_range c (hu c (List.mem_cons_self ..))
    have hcs : ∀ x ∈ cs, isUpperLetter x = true := fun x hx => hu x (List.mem_cons_of_mem _ hx)
    simp only [List.foldl_cons, ih hcs, bijBase26, List.length_cons]
    push_cast [Nat.cast_sub (by omega : 64 ≤ c.toNat)]
    ring

lemma columnLettersToIndex_eq_bij (letters : String)
    (hu : ∀ c ∈ letters.data, isUpperLetter c = true) :
    columnLettersToIndex letters = (bijBase26 letters.data : Int) - 1 := by
  unfold columnLettersToIndex
  rw [colFoldl_eq letters.data hu 0]
  simp

lemma bij_pos (cs : List Char) (hne : cs ≠ []) (hu : ∀ c ∈ cs, isUpperLetter c = true) :
    1 ≤ bijBase26 cs := by
  cases cs with
  | nil => exact absurd rfl hne
  | cons c cs =>
    have hc := upper_range c (hu c (List.mem_cons_self ..))
    have hp : 0 < 26 ^ cs.length := pow_pos (by omega) cs.length
    have hm : 0 < (c.toNat - 64) * 26 ^ cs.length := Nat.mul_pos (by omega) hp
    simp only [bijBase26]
    omega

lemma geo_mul (n : Nat) : 25 * geo n + 1 = 26 ^ n := by
  induction n with
  | zero => simp [geo]
  | succ n ih =>
    rw [pow_succ, ← ih]
    simp [geo]
    ring

lemma geo_le_succ (n : Nat) : geo n ≤ geo (n + 1) := by
  have h : geo (n + 1) = 26 * geo n + 1 := rfl
  omega

lemma geo_mono : Monotone geo := monotone_nat_of_le_succ geo_le_succ

lemma bij_bounds : ∀ (cs : List Char), (∀ c ∈ cs, isUpperLetter c = true) →
    geo cs.length ≤ bijBase26 cs ∧ bijBase26 cs ≤ 26 * geo cs.length := by
  intro cs
  induction cs with
  | nil => simp [bijBase26, geo]
  | cons c cs ih =>
    intro hu
    obtain ⟨hl, hr⟩ := ih (fun x hx => hu x (List.mem_cons_of_mem _ hx))
    have hc := upper_range c (hu c (List.mem_cons_self ..))
    have hpow : 25 * geo cs.length + 1 = 26 ^ cs.length := geo_mul cs.length
    have hlo : 1 * 26 ^ cs.length ≤ (c.toNat - 64) * 26 ^ cs.length :=
      Nat.mul_le_mul_right _ (by omega)
    have hhi : (c.toNat - 64) * 26 ^ cs.length ≤ 26 * 26 ^ cs.length :=
      Nat.mul_le_mul_right _ (by omega)
    rw [one_mul] at hlo
    simp only [bijBase26, List.length_cons]
    have hgeo : geo (cs.length + 1) = 26 * geo cs.length + 1 := rfl
    constructor
    · omega
    · rw [hgeo]
      omega

lemma bij_lt_of_length_lt (s1 s2 : List Char)
    (h1 : ∀ c ∈ s1, isUpperLetter c = true) (h2 : ∀ c ∈ s2, isUpperLetter c = true)
    (hlen : s1.length < s2.length) : bijBase26 s1 < bijBase26 s2 := by
  have b1 := (bij_bounds s1 h1).2
  have b2 := (bij_bounds s2 h2).1
  have hg : geo (s1.length + 1) = 26 * geo s1.length + 1 := rfl
  have hm : geo (s1.length + 1) ≤ geo s2.length := geo_mono hlen
  omega

lemma bij_lt_of_lexLt : ∀ (s1 s2 : List Char), s1.length = s2.length →
    (∀ c ∈ s1, isUpperLetter c = true) → (∀ c ∈ s2, isUpperLetter c = true) →
    lexLtB s1 s2 = true → bijBase26 s1 < bijBase26 s2 := by
  intro s1
  induction s1 with
  | nil =>
    intro s2 hlen _ _ hlex
    cases s2 with
    | nil => exact absurd hlex (by decide)
    | cons b bs => simp at hlen
  | cons a as ih =>
    intro s2 hlen h1 h2 hlex
    cases s2 with
    | nil => simp at hlen
    | cons b bs =>
      have hlen' : as.length = bs.length := by simpa using hlen
      have ha := upper_range a (h1 a (List.mem_cons_self ..))
      have hb := upper_range b (h2 b (List.mem_cons_self ..))
      have has : ∀ c ∈ as, isUpperLetter c = true := fun c hc => h1 c (List.mem_cons_of_mem _ hc)
      have hbs : ∀ c ∈ bs, isUpperLetter c = true := fun c hc => h2 c (List.mem_cons_of_mem _ hc)
      simp only [lexLtB] at hlex
      by_cases hab : a.toNat < b.toNat
      · rw [if_pos hab] at hlex
        have bas := (bij_bounds as has).2
        have bbs := (bij_bounds bs hbs).1
        have hpow : 25 * geo as.length + 1 = 26 ^ as.length := geo_mul as.length
        have hmul : ((a.toNat - 64) + 1) * 26 ^ as.length ≤ (b.toNat - 64) * 26 ^ as.length :=
          Nat.mul_le_mul_right _ (by omega)
        rw [add_one_mul] at hmul
        rw [← hlen'] at bbs
        simp only [bijBase26]
        rw [← hlen']
        omega
      · rw [if_neg hab] at hlex
        by_cases heq : a.toNat = b.toNat
        · rw [if_pos heq] at hlex
          have hv : a.toNat - 64 = b.toNat - 64 := by omega
          simp only [bijBase26]
          rw [hv, hlen']
          exact Nat.add_lt_add_left (ih bs hlen' has hbs hlex) _
        · rw [if_neg heq] at hlex
          exact absurd hlex (by decide)

lemma bij_lt_of_colNameOrder (s1 s2 : List Char)
    (h1 : ∀ c ∈ s1, isUpperLetter c = true) (h2 : ∀ c ∈ s2, isUpperLetter c = true)
    (hord : colNameOrder s1 s2 = true) : bijBase26 s1 < bijBase26 s2 := by
  have h : s1.length < s2.length ∨ (s1.length = s2.length ∧ lexLtB s1 s2 = true) := by
    simpa [colNameOrder, Nat.blt_eq, Bool.or_eq_true, Bool.and_eq_true, beq_iff_eq] using hord
  rcases h with h | ⟨hl, hx⟩
  · exact bij_lt_of_length_lt s1 s2 h1 h2 h
  · exact bij_lt_of_lexLt s1 s2 hl h1 h2 hx

lemma find?_first {α : Type} (p : α → Bool) : ∀ (l : List α) (i : Nat) (a : α),
    l.get? i = some a → p a = true →
    (∀ j, j < i → ∀ b, l.get? j = some b → p b = false) →
    l.find? p = some a := by
  intro l
  induction l with
  | nil => intro i a h; simp at h
  | cons x xs ih =>
    intro i a hget hp hfirst
    cases i with
    | zero =>
      have hx : x = a := by simpa using hget
      subst hx
      simp [List.find?_cons, hp]
    | succ i =>
      have hx : p x = false := hfirst 0 (Nat.succ_pos i) x rfl
      have hrec := ih i a (by simpa using hget) hp
        (fun j hj b hb => hfirst (j + 1) (by omega) b (by simpa using hb))
      simp [List.find?_cons, hx, hrec]

lemma bearer_shape_ok (pre w t : List Char)
    (hpre : pre.map asciiLower = "bearer".data)
    (hw : w ≠ []) (hwall : ∀ c ∈ w, isJsWhitespace c = true)
    (ht : t ≠ []) (htall : ∀ c ∈ t, isJsDotChar c = true)
    (hthead : ∀ c ∈ t.take 1, isJsWhitespace c = false) :
    getBearerToken (some (String.mk (pre ++ (w ++ t)))) = Except.ok (String.mk t) := by
  have hlen6 : pre.length = 6 := by
    have := congrArg List.length hpre
    simpa using this
  have hne : (pre ++ (w ++ t) : List Char) ≠ [] := by
    cases pre with
    | nil => simp at hlen6
    | cons a as => simp
  simp only [getBearerToken]
  rw [if_neg hne]
  simp only [bearerMatch]
  rw [List.take_left' hlen6, List.drop_left' hlen6, if_pos hpre]
  have hws := takeWhile_run isJsWhitespace w t hwall hthead
  rw [hws.1]
  obtain ⟨j, hj⟩ : ∃ j, w.length = j + 1 := by
    cases w with
    | nil => exact absurd rfl hw
    | cons a as => exact ⟨as.length, rfl⟩
  rw [hj]
  simp only [bearerBacktrack]
  rw [List.drop_left' hj, isEmpty_false_of_ne t ht]
  rw [show t.all isJsDotChar = true from List.all_eq_true.mpr htall]
  simp

/-- Claim C2: for every non-empty sequence of uppercase letters A–Z,
`columnLettersToIndex` equals the bijective base-26 value of the sequence
minus 1 and is a non-negative integer; in particular "A" maps to 0, "Z" to
25, "AA" to 26, "AZ" to 51 and "BA" to 52. -/
theorem columnLettersToIndex_bijective_base26 :
    (∀ letters : String, letters.data ≠ [] →
      (∀ c ∈ letters.data, isUpperLetter c = true) →
      columnLettersToIndex letters = (bijBase26 letters.data : Int) - 1 ∧
        0 ≤ columnLettersToIndex letters) ∧
    columnLettersToIndex "A" = 0 ∧ columnLettersToIndex "Z" = 25 ∧
    columnLettersToIndex "AA" = 26 ∧ columnLettersToIndex "AZ" = 51 ∧
    columnLettersToIndex "BA" = 52 := by
  refine ⟨?_, by decide, by decide, by decide, by decide, by decide⟩
  intro letters hne hu
  have heq := columnLettersToIndex_eq_bij letters hu
  refine ⟨heq, ?_⟩
  rw [heq]
  have hpos : (1 : Int) ≤ (bijBase26 letters.data : Int) := by
    exact_mod_cast bij_pos letters.data hne hu
  omega

/-- Witness for claim C2 at the concrete sequence "AB". -/
theorem columnLettersToIndex_bijective_base26_witness :
    columnLettersToIndex "AB" = (bijBase26 "AB".data : Int) - 1 ∧
      0 ≤ columnLettersToIndex "AB" :=
  columnLettersToIndex_bijective_base26.1 "AB" (by decide) (by decide)

/-- Claim C5: for column-letter sequences of length 1 to 3 drawn from A–Z,
`columnLettersToIndex` is strictly increasing in spreadsheet column-name
order (shorter names first, equal lengths lexicographically). -/
theorem columnLettersToIndex_strict_mono (s1 s2 : List Char)
    (h1len : 1 ≤ s1.length ∧ s1.length ≤ 3) (h2len : 1 ≤ s2.length ∧ s2.length ≤ 3)
    (h1u : ∀ c ∈ s1, isUpperLetter c = true) (h2u : ∀ c ∈ s2, isUpperLetter c = true)
    (hord : colNameOrder s1 s2 = true) :
    columnLettersToIndex (String.mk s1) < columnLettersToIndex (String.mk s2) := by
  have e1 : columnLettersToIndex (String.mk s1) = (bijBase26 s1 : Int) - 1 :=
    columnLettersToIndex_eq_bij (String.mk s1) h1u
  have e2 : columnLettersToIndex (String.mk s2) = (bijBase26 s2 : Int) - 1 :=
    columnLettersToIndex_eq_bij (String.mk s2) h2u
  have hlt : bijBase26 s1 < bijBase26 s2 := bij_lt_of_colNameOrder s1 s2 h1u h2u hord
  have hlt' : (bijBase26 s1 : Int) < (bijBase26 s2 : Int) := by exact_mod_cast hlt
  rw [e1, e2]
  omega

/-- Witness for claim C5 at the boundary pair "Z" < "AA". -/
theorem columnLettersToIndex_strict_mono_witness :
    columnLettersToIndex (String.mk ['Z']) < columnLettersToIndex (String.mk ['A', 'A']) :=
  columnLettersToIndex_strict_mono ['Z'] ['A', 'A'] (by decide) (by decide) (by decide)
    (by decide) (by decide)

/-- Claim C4: `getSheetIdByName` returns the sheetId of the first metadata
entry whose title exactly (case-sensitively) equals the requested name, and
fails with the sheet-not-found error when no entry's title equals it. -/
theorem getSheetIdByName_first_exact_match (sheetsMeta : List (Option SheetProps))
    (name : String) :
    (∀ i p, sheetsMeta.get? i = some (some p) → p.title = name →
      (∀ j, j < i → ∀ s, sheetsMeta.get? j = some s → sheetEntryMatches s name = false) →
      getSheetIdByName sheetsMeta name = Except.ok p.sheetId) ∧
    ((∀ s ∈ sheetsMeta, sheetEntryMatches s name = false) →
      getSheetIdByName sheetsMeta name = Except.error ("Sheet not found: " ++ name)) := by
  constructor
  · intro i p hget htitle hfirst
    have hp : sheetEntryMatches (some p) name = true := by
      simp [sheetEntryMatches, htitle]
    have hfind := find?_first (fun s => sheetEntryMatches s name) sheetsMeta i (some p)
      hget hp hfirst
    simp [getSheetIdByName, hfind]
  · intro hall
    have hnone : sheetsMeta.find? (fun s => sheetEntryMatches s name) = none := by
      rw [List.find?_eq_none]
      intro x hx
      simp [hall x hx]
    simp [getSheetIdByName, hnone]

/-- Witness for claim C4: the id of the FIRST "Beta" entry is returned
(skipping a properties-less entry), and a missing title is an error. -/
theorem getSheetIdByName_first_exact_match_witness :
    getSheetIdByName [some ⟨3, "Alpha"⟩, none, some ⟨9, "Beta"⟩, some ⟨11, "Beta"⟩] "Beta" =
      Except.ok 9 ∧
    getSheetIdByName [some ⟨3, "Alpha"⟩] "Gamma" =
      Except.error "Sheet not found: Gamma" := by
  constructor
  · refine (getSheetIdByName_first_exact_match _ "Beta").1 2 ⟨9, "Beta"⟩ rfl rfl ?_
    intro j hj s hs
    match j, hj with
    | 0, _ =>
      simp at hs
      subst hs
      decide
    | 1, _ =>
      simp at hs
      subst hs
      decide
  · refine (getSheetIdByName_first_exact_match _ "Gamma").2 ?_
    intro s hs
    simp at hs
    subst hs
    decide

/-- Claim C1: for every range reference built as name-part, '!', and a span
letters-digits-colon-letters-digits, where the name part contains no '!'
and is the sheet name either plain (not itself quote-shaped) or wrapped in
single quotes (which are stripped), and the sheet name resolves, the parser
returns the grid range with sheetId the resolved id, startRowIndex = start
row − 1, endRowIndex = end row, startColumnIndex = letters-to-index of the
start letters and endColumnIndex = letters-to-index of the end letters + 1;
in particular "Sheet1!A1:B2" with sheet id 0 yields {0, 0, 2, 0, 2} and
"'My Sheet'!C3:C3" yields rows 2–3 and columns 2–3. -/
theorem parseA1ToGridRange_form_correct (sheetsMeta : List (Option SheetProps))
    (namePartL nameL : List Char) (sid : Int)
    (hb : ∀ c ∈ namePartL, c ≠ '!')
    (hdecomp : (namePartL = nameL ∧ stripApplies nameL = false) ∨
      (nameL ≠ [] ∧ (∀ c ∈ nameL, isJsDotChar c = true) ∧
        namePartL = '\'' :: (nameL ++ ['\''])))
    (c1 r1 c2 r2 : List Char)
    (hc1 : c1 ≠ []) (hc1u : ∀ c ∈ c1, isUpperLetter c = true)
    (hr1 : r1 ≠ []) (hr1d : ∀ c ∈ r1, isDigitCh c = true)
    (hc2 : c2 ≠ []) (hc2u : ∀ c ∈ c2, isUpperLetter c = true)
    (hr2 : r2 ≠ []) (hr2d : ∀ c ∈ r2, isDigitCh c = true)
    (hsid : getSheetIdByName sheetsMeta (String.mk nameL) = Except.ok sid) :
    parseA1ToGridRange sheetsMeta
        (String.mk (namePartL ++ '!' :: (c1 ++ (r1 ++ ':' :: (c2 ++ r2))))) =
      Except.ok ⟨sid, (digitsToNat r1 : Int) - 1, (digitsToNat r2 : Int),
        columnLettersToIndex (String.mk c1), columnLettersToIndex (String.mk c2) + 1⟩ ∧
    parseA1ToGridRange [some ⟨0, "Sheet1"⟩] "Sheet1!A1:B2" = Except.ok ⟨0, 0, 2, 0, 2⟩ ∧
    parseA1ToGridRange [some ⟨9, "My Sheet"⟩] "'My Sheet'!C3:C3" =
      Except.ok ⟨9, 2, 3, 2, 3⟩ := by
  refine ⟨?_, by decide, by decide⟩
  have hstrip : stripSheetQuotes (String.mk namePartL) = String.mk nameL := by
    rcases hdecomp with ⟨rfl, hap⟩ | ⟨hne, hdot, rfl⟩
    · exact stripSheetQuotes_id _ hap
    · exact stripSheetQuotes_quoted nameL hne hdot
  exact parseA1_built sheetsMeta namePartL hb c1 r1 c2 r2 hc1 hc1u hr1 hr1d hc2 hc2u hr2 hr2d
    sid (by rw [hstrip]; exact hsid)

/-- Witness for claim C1 at sheet "Data" (id 4) and span B2:D5. -/
theorem parseA1ToGridRange_form_correct_witness :
    parseA1ToGridRange [some ⟨4, "Data"⟩]
        (String.mk ("Data".data ++ '!' ::
          ("B".data ++ ("2".data ++ ':' :: ("D".data ++ "5".data))))) =
      Except.ok ⟨4, 1, 5, 1, 4⟩ :=
  ((parseA1ToGridRange_form_correct [some ⟨4, "Data"⟩] "Data".data "Data".data 4
      (by decide) (Or.inl ⟨rfl, by decide⟩) "B".data "2".data "D".data "5".data
      (by decide) (by decide) (by decide) (by decide) (by decide) (by decide)
      (by decide) (by decide) (by decide)).1).trans (by decide)

/-- Claim C6: a span whose end corner precedes its start corner is neither
reordered nor rejected: the parser succeeds with the same index arithmetic,
producing an inverted rectangle; in particular "Sheet1!B2:A1" yields
startRowIndex = endRowIndex = startColumnIndex = endColumnIndex = 1. -/
theorem parseA1ToGridRange_inverted (sheetsMeta : List (Option SheetProps))
    (namePartL : List Char) (sid : Int)
    (hb : ∀ c ∈ namePartL, c ≠ '!')
    (c1 r1 c2 r2 : List Char)
    (hc1 : c1 ≠ []) (hc1u : ∀ c ∈ c1, isUpperLetter c = true)
    (hr1 : r1 ≠ []) (hr1d : ∀ c ∈ r1, isDigitCh c = true)
    (hc2 : c2 ≠ []) (hc2u : ∀ c ∈ c2, isUpperLetter c = true)
    (hr2 : r2 ≠ []) (hr2d : ∀ c ∈ r2, isDigitCh c = true)
    (hsid : getSheetIdByName sheetsMeta (stripSheetQuotes (String.mk namePartL)) =
      Except.ok sid)
    (hinv : columnLettersToIndex (String.mk c2) < columnLettersToIndex (String.mk c1) ∨
      digitsToNat r2 < digitsToNat r1) :
    parseA1ToGridRange sheetsMeta
        (String.mk (namePartL ++ '!' :: (c1 ++ (r1 ++ ':' :: (c2 ++ r2))))) =
      Except.ok ⟨sid, (digitsToNat r1 : Int) - 1, (digitsToNat r2 : Int),
        columnLettersToIndex (String.mk c1), columnLettersToIndex (String.mk c2) + 1⟩ ∧
    parseA1ToGridRange [some ⟨7, "Sheet1"⟩] "Sheet1!B2:A1" = Except.ok ⟨7, 1, 1, 1, 1⟩ := by
  refine ⟨?_, by decide⟩
  exact parseA1_built sheetsMeta namePartL hb c1 r1 c2 r2 hc1 hc1u hr1 hr1d hc2 hc2u hr2 hr2d
    sid hsid

/-- Witness for claim C6 at the inverted span B2:A1 on sheet "Sheet1". -/
theorem parseA1ToGridRange_inverted_witness :
    parseA1ToGridRange [some ⟨7, "Sheet1"⟩]
        (String.mk ("Sheet1".data ++ '!' ::
          ("B".data ++ ("2".data ++ ':' :: ("A".data ++ "1".data))))) =
      Except.ok ⟨7, 1, 1, 1, 1⟩ :=
  ((parseA1ToGridRange_inverted [some ⟨7, "Sheet1"⟩] "Sheet1".data 7 (by decide)
      "B".data "2".data "A".data "1".data (by decide) (by decide) (by decide) (by decide)
      (by decide) (by decide) (by decide) (by decide) (by decide)
      (Or.inl (by decide))).1).trans (by decide)

/-- Claim C10: the span check is an unanchored substring match: inputs whose
span part is not entirely of the letters-digits-colon-letters-digits form
but contains such a substring are not rejected; the first embedded
occurrence is decoded ("Sheet1!A1:B2:C3" and "Sheet1!-A1:B2-" both decode
as A1:B2). -/
theorem parseA1ToGridRange_unanchored_substring :
    parseA1ToGridRange [some ⟨0, "Sheet1"⟩] "Sheet1!A1:B2:C3" =
      Except.ok ⟨0, 0, 2, 0, 2⟩ ∧
    parseA1ToGridRange [some ⟨0, "Sheet1"⟩] "Sheet1!-A1:B2-" =
      Except.ok ⟨0, 0, 2, 0, 2⟩ := by decide

/-- Claim C3 counterexample: at input "S!" the span part (the text between
the first and second '!') is empty, which does not match the span pattern,
yet the parser fails with the sheet-name message rather than the span
message; and at "Nope!A:A" against metadata without "Nope" the span "A:A"
does not match the pattern, yet the parser fails with the sheet-not-found
message — so the claimed "fails with the span error whenever the span does
not match" is false as stated. -/
theorem parseA1_error_claim_counterexample :
    (splitBang "S!".data).getD 1 [] = [] ∧
    findA1Match (([] : List Char).map Char.toUpper) = none ∧
    parseA1ToGridRange [some ⟨0, "S"⟩] "S!" = Except.error errRangeNoSheet ∧
    errRangeNoSheet ≠ errRangeBadSpan ∧
    parseA1ToGridRange [] "Nope!A:A" = Except.error "Sheet not found: Nope" ∧
    "Sheet not found: Nope" ≠ errRangeBadSpan := by decide

/-- Claim C3 (amended): the parser splits its input on every '!' and keeps
the first two pieces; it fails with the "range must include sheet name"
error whenever the piece between the first and second '!' is empty or
absent — in particular whenever no '!' occurs at all — and, when that span
piece is non-empty and the sheet name resolves, it fails with the "range
must be like A1:B2" error whenever the uppercased span piece contains no
substring of the letters-digits-colon-letters-digits form (so open-ended
spans like A:A or 1:5 and bare cells like A1 are rejected). -/
theorem parseA1_error_conditions (sheetsMeta : List (Option SheetProps)) (a1 : String) :
    ((∀ c ∈ a1.data, c ≠ '!') →
      parseA1ToGridRange sheetsMeta a1 = Except.error errRangeNoSheet) ∧
    ((splitBang a1.data).getD 1 [] = [] →
      parseA1ToGridRange sheetsMeta a1 = Except.error errRangeNoSheet) ∧
    (∀ sid, (splitBang a1.data).getD 1 [] ≠ [] →
      getSheetIdByName sheetsMeta
          (stripSheetQuotes (String.mk ((splitBang a1.data).headD []))) = Except.ok sid →
      findA1Match (((splitBang a1.data).getD 1 []).map Char.toUpper) = none →
      parseA1ToGridRange sheetsMeta a1 = Except.error errRangeBadSpan) := by
  refine ⟨?_, ?_, ?_⟩
  · intro h
    have hsplit : splitBang a1.data = [a1.data] := splitBang_no_bang _ h
    simp [parseA1ToGridRange, hsplit]
  · intro h
    simp only [parseA1ToGridRange]
    rw [if_pos h]
  · intro sid hne hsid hfind
    simp only [parseA1ToGridRange]
    rw [if_neg hne, hsid, hfind]

/-- Witness for amended claim C3: a reference without '!' fails with the
sheet-name error, and an open-ended span on an existing sheet fails with
the span error. -/
theorem parseA1_error_conditions_witness :
    parseA1ToGridRange [] "A1:B2" = Except.error errRangeNoSheet ∧
    parseA1ToGridRange [some ⟨0, "S"⟩] "S!A:A" = Except.error errRangeBadSpan := by
  constructor
  · exact (parseA1_error_conditions [] "A1:B2").1 (by decide)
  · exact (parseA1_error_conditions [some ⟨0, "S"⟩] "S!A:A").2.2 0 (by decide) (by decide)
      (by decide)

/-- Claim C7 counterexample: an authorization header that is present but
empty does not match the Bearer shape, yet credential extraction fails with
the missing-credential message, not the malformed-credential one. -/
theorem getBearerToken_empty_header_counterexample :
    bearerMatch "" = none ∧
    getBearerToken (some "") = Except.error errMissingAuth ∧
    errMissingAuth ≠ errMalformedAuth := by decide

/-- Claim C7 (amended): credential extraction fails with the
missing-credential error whenever the request carries no authorization
header or carries one with an empty value; fails with the
malformed-credential error whenever the header is non-empty and does not
match the "Bearer <token>" shape; and otherwise returns the token portion
verbatim (stated for the canonical decomposition: case-variant "Bearer",
then whitespace, then a token that starts with non-whitespace). -/
theorem getBearerToken_cases :
    getBearerToken none = Except.error errMissingAuth ∧
    getBearerToken (some "") = Except.error errMissingAuth ∧
    (∀ h : String, h.data ≠ [] → bearerMatch h = none →
      getBearerToken (some h) = Except.error errMalformedAuth) ∧
    (∀ pre w t : List Char, pre.map asciiLower = "bearer".data →
      w ≠ [] → (∀ c ∈ w, isJsWhitespace c = true) →
      t ≠ [] → (∀ c ∈ t, isJsDotChar c = true) →
      (∀ c ∈ t.take 1, isJsWhitespace c = false) →
      getBearerToken (some (String.mk (pre ++ (w ++ t)))) = Except.ok (String.mk t)) := by
  refine ⟨rfl, rfl, ?_, ?_⟩
  · intro h hne hb
    simp [getBearerToken, hne, hb]
  · exact bearer_shape_ok

/-- Witness for amended claim C7: a well-formed header yields its token, a
shapeless header is malformed. -/
theorem getBearerToken_cases_witness :
    getBearerToken (some (String.mk ("Bearer".data ++ (" ".data ++ "xyz".data)))) =
      Except.ok "xyz" ∧
    getBearerToken (some "Borked") = Except.error errMalformedAuth := by
  constructor
  · exact (getBearerToken_cases.2.2.2 "Bearer".data " ".data "xyz".data (by decide)
      (by decide) (by decide) (by decide) (by decide) (by decide)).trans (by decide)
  · exact getBearerToken_cases.2.2.1 "Borked" (by decide) (by decide)

/-- Claim C8: an upload whose decoded payload exceeds 10MB fails with the
payload-too-large error and never reaches the external create call. -/
theorem driveUploadFile_size_guard (name mimeType : String) (buffer : List Nat)
    (parentId : Option String) (h : buffer.length > 10 * 1024 * 1024) :
    driveUploadFile name mimeType buffer parentId = DriveUploadOutcome.error errFileTooLarge ∧
    ∀ n m bl p, driveUploadFile name mimeType buffer parentId ≠
      DriveUploadOutcome.createCall n m bl p := by
  constructor
  · simp [driveUploadFile, h]
  · intro n m bl p
    simp [driveUploadFile, h]

/-- Witness for claim C8 at a payload one byte over the cap. -/
theorem driveUploadFile_size_guard_witness :
    driveUploadFile "f.bin" "application/octet-stream"
        (List.replicate (10 * 1024 * 1024 + 1) 0) none =
      DriveUploadOutcome.error errFileTooLarge :=
  (driveUploadFile_size_guard "f.bin" "application/octet-stream" _ none
    (by rw [List.length_replicate]; omega)).1

/-- Claim C9 (code bug): the tool name "constructor" is not a key of the
static registry, yet the JavaScript property lookup `toolHandlers[name]`
finds the inherited `Object.prototype.constructor`, so dispatch proceeds
past the unknown-tool check (here: to credential extraction) instead of
returning the 404 unknown-tool failure; a name that is neither a registry
key nor an inherited property does take the unknown-tool path, for every
handler semantics, args and credentials. -/
theorem dispatch_inherited_property_bug :
    toolNames.contains "constructor" = false ∧
    toolLookupTruthy "constructor" = true ∧
    dispatchTool (fun _ _ _ => Except.ok (0 : Nat)) (0 : Nat) (some "constructor") none none =
      ToolResponse.err 400 errMissingAuth ∧
    dispatchTool (fun _ _ _ => Except.ok (0 : Nat)) (0 : Nat) (some "constructor") none none ≠
      ToolResponse.err 404 "Unknown tool: constructor" ∧
    ∀ (run : String → Nat → String → Except String Nat) (args : Option Nat)
      (auth : Option String),
      dispatchTool run 0 (some "sheets.nope") args auth =
        ToolResponse.err 404 "Unknown tool: sheets.nope" := by
  refine ⟨by decide, by decide, by decide, by decide, ?_⟩
  intro run args auth
  rfl
